import Mathlib

/-!
Verification of the resilient structured-inference client and the ordered
conversation store of the plant-detection app (src/app.js), as a shallow
embedding in Lean 4.  Asynchronous JS functions are modelled as pure
functions: a fallible operation is a function from its attempt index to an
`Except` value, the Firestore document store is an explicit list of
documents threaded through the operations, and `Math.random` is an explicit
sequence of rational draws.
-/

/-- Trace of one run of the retry loop of `retryWithBackoff`: the outcome
(`none` models the JS `undefined` value produced when the loop body never
runs), the number of times the operation was invoked, and the backoff
delays slept between attempts, in order. -/
structure RetryTrace (E A : Type) where
  result : Option (Except E A)
  invocations : Nat
  delays : List ℚ

/-- Backoff delay slept after failed attempt `i`, from src/app.js line 45:
`Math.pow(2, i) * 1000 + Math.random() * 1000`, with `r` standing for the
value drawn by `Math.random()`, which lies in `[0, 1)`. -/
def delay (i : Nat) (r : ℚ) : ℚ := 2 ^ i * 1000 + r * 1000

/-- The deterministic floor component of the backoff delay after attempt
`i`: `2 ^ i * 1000` milliseconds. -/
def delayFloor (i : Nat) : ℚ := 2 ^ i * 1000

/-- The loop of `retryWithBackoff` (src/app.js lines 40-48), indexed by the
current attempt number `i` and by the remaining fuel `maxRetries - i`.
Fuel `0` models the loop guard `i < maxRetries` failing (the function falls
off the loop and returns `undefined`); fuel `1` models the last attempt
(`i === maxRetries - 1`), whose error is rethrown; with more fuel a failed
attempt sleeps `delay i (rand i)` and retries.  `rand i` is the
`Math.random()` draw used for the jitter after attempt `i`. -/
def retryLoop {E A : Type} (fn : Nat → Except E A) (rand : Nat → ℚ) :
    Nat → Nat → RetryTrace E A
  | i, 0 => { result := none, invocations := i, delays := [] }
  | i, 1 =>
    match fn i with
    | Except.ok a => { result := some (Except.ok a), invocations := i + 1, delays := [] }
    | Except.error e =>
        { result := some (Except.error e), invocations := i + 1, delays := [] }
  | i, fuel + 2 =>
    match fn i with
    | Except.ok a => { result := some (Except.ok a), invocations := i + 1, delays := [] }
    | Except.error _ =>
      let t := retryLoop fn rand (i + 1) (fuel + 1)
      { result := t.result, invocations := t.invocations,
        delays := delay i (rand i) :: t.delays }

/-- `retryWithBackoff` (src/app.js lines 39-49).  `maxRetries` is an `Int`
so that non-positive arguments (for which the `for` loop body never runs
and the function resolves to `undefined`) are representable; the source
default is `5`, passed explicitly at every call site below. -/
def retryWithBackoff {E A : Type} (fn : Nat → Except E A) (rand : Nat → ℚ)
    (maxRetries : Int) : RetryTrace E A :=
  retryLoop fn rand 0 maxRetries.toNat

/-- The list of backoff delays for attempts `i, i+1, ..., i+n-1`. -/
def delaysFrom (rand : Nat → ℚ) : Nat → Nat → List ℚ
  | _, 0 => []
  | i, n + 1 => delay i (rand i) :: delaysFrom rand (i + 1) n

/-- One part of a response candidate: an optional text field, as read by
the optional chain `parts?.[0]?.text` in src/app.js lines 138 and 326. -/
structure RespPart where
  text : Option String

/-- The content object of a response candidate; `parts` is its list of
parts. -/
structure RespContent where
  parts : List RespPart

/-- One candidate of the inference response envelope; `content` is absent
when the upstream omits it (optional chaining yields undefined). -/
structure RespCandidate where
  content : Option RespContent

/-- The response envelope of the inference endpoint: a list of candidates
(possibly empty). -/
structure Envelope where
  candidates : List RespCandidate

/-- `result.candidates?.[0]?.content?.parts?.[0]?.text` (src/app.js lines
138 and 326): the first candidate's first part's text, or `none` when any
link of the optional chain is missing. -/
def extractText (e : Envelope) : Option String :=
  match e.candidates with
  | [] => none
  | c :: _ =>
    match c.content with
    | none => none
    | some ct =>
      match ct.parts with
      | [] => none
      | p :: _ => p.text

/-- A JSON value, as `JSON.parse` produces one: null, boolean, number
(modelled as a rational), string, array or object (an ordered list of
key-value fields). -/
inductive Json where
  | null : Json
  | bool (b : Bool) : Json
  | num (q : ℚ) : Json
  | str (s : String) : Json
  | arr (elems : List Json) : Json
  | obj (fields : List (String × Json)) : Json

/-- JS property read `j.key` on a parsed JSON value that is not null: the
first field with that key of an object, `none` (undefined) otherwise. -/
def Json.getField : Json → String → Option Json
  | Json.obj fields, key => (fields.find? (fun p => p.fst == key)).map (fun p => p.snd)
  | _, _ => none

/-- The distinct failure paths of a scan (src/app.js handleScan): each
constructor is one throw site of the source.  `apiFailure` carries the
error of the exhausted retry loop; `emptyOrMalformedResponse` is the throw
at line 139; `jsonSyntaxError` is a `JSON.parse` SyntaxError at line 142;
`nullResponse` is the TypeError raised by reading a property of a parsed
`null`; `invalidHealthPercentage` is the throw at line 144;
`internalError` covers the unreachable undefined result of the retry
helper. -/
inductive ScanError (E : Type) where
  | encodingError : ScanError E
  | apiFailure (e : E) : ScanError E
  | emptyOrMalformedResponse : ScanError E
  | jsonSyntaxError : ScanError E
  | nullResponse : ScanError E
  | invalidHealthPercentage : ScanError E
  | internalError : ScanError E

/-- The error taxonomy of spec section 7. -/
inductive SpecErrorKind where
  | encodingError : SpecErrorKind
  | transientTransportError : SpecErrorKind
  | emptyResponseError : SpecErrorKind
  | schemaViolationError : SpecErrorKind
  | internalError : SpecErrorKind
deriving DecidableEq

/-- How each concrete failure path of the source maps onto the spec's error
taxonomy: decode-stage structural failures (unparseable text, a non-object
result, a non-numeric health percentage) are SchemaViolationError, a
missing or empty candidate text is EmptyResponseError. -/
def ScanError.kindOf {E : Type} : ScanError E → SpecErrorKind
  | ScanError.encodingError => SpecErrorKind.encodingError
  | ScanError.apiFailure _ => SpecErrorKind.transientTransportError
  | ScanError.emptyOrMalformedResponse => SpecErrorKind.emptyResponseError
  | ScanError.jsonSyntaxError => SpecErrorKind.schemaViolationError
  | ScanError.nullResponse => SpecErrorKind.schemaViolationError
  | ScanError.invalidHealthPercentage => SpecErrorKind.schemaViolationError
  | ScanError.internalError => SpecErrorKind.internalError

/-- An uploaded image file: `content` is the base64 payload the FileReader
delivers, `none` when the file is unreadable (the reader rejects);
`fileType` is the file's MIME type string, possibly empty. -/
structure ImageFile where
  content : Option String
  fileType : String

/-- `fileToBase64` (src/app.js lines 56-63): resolves with the base64 data
of a readable file and rejects (modelled as `none`) for an unreadable
one. -/
def fileToBase64 (f : ImageFile) : Option String := f.content

/-- `file.type || 'image/png'` (src/app.js line 93). -/
def effectiveMimeType (f : ImageFile) : String :=
  if f.fileType = "" then "image/png" else f.fileType

/-- The inline image data of the multimodal request payload. -/
structure InlineData where
  mimeType : String
  data : String

/-- The single-turn multimodal request payload built by handleScan
(src/app.js lines 99-118): the instruction text plus the inline image. -/
structure ScanPayload where
  prompt : String
  inline : InlineData

/-- The fixed user prompt of the scan request (src/app.js line 96). -/
def scanUserPrompt : String :=
  "Analyze this image of a plant. Determine its health percentage (0-100), predict the specific disease, or state 'Healthy'. Provide 3 to 5 actionable home remedies using common household products like soap, vinegar, or baking soda. If the plant is healthy, provide general care tips instead of remedies. Respond ONLY in the requested JSON format."

/-- Builds the scan request payload from the effective MIME type and the
base64 image data. -/
def buildScanPayload (mimeType b64 : String) : ScanPayload :=
  { prompt := scanUserPrompt, inline := { mimeType := mimeType, data := b64 } }

/-- The validation tail of the decode stage (src/app.js lines 143-145):
the parsed value must expose a numeric `health_percentage` property.
Reading a property of a parsed `null` throws a TypeError, modelled as
`nullResponse`. -/
def validateParsed {E : Type} (j : Json) : Except (ScanError E) Json :=
  match j with
  | Json.null => Except.error ScanError.nullResponse
  | j =>
    match j.getField "health_percentage" with
    | some (Json.num _) => Except.ok j
    | _ => Except.error ScanError.invalidHealthPercentage

/-- The decode stage of handleScan (src/app.js lines 138-147): extract the
first candidate's text, reject a missing or empty text (the truthiness
test `if (!jsonText)`), `JSON.parse` it (`parse` stands for the JS
builtin, `none` modelling a SyntaxError), then validate the parsed
value. -/
def decodeScanResponse {E : Type} (parse : String → Option Json) (env : Envelope) :
    Except (ScanError E) Json :=
  match extractText env with
  | none => Except.error ScanError.emptyOrMalformedResponse
  | some t =>
    if t = "" then Except.error ScanError.emptyOrMalformedResponse
    else
      match parse t with
      | none => Except.error ScanError.jsonSyntaxError
      | some j => validateParsed j

/-- The try block of handleScan (src/app.js lines 90-147): encode the file
(failing with `encodingError` before any network activity), drive the
network call `net` (a function of the built payload and of the attempt
index) through `retryWithBackoff` with the default cap of 5, then decode.
Returns the typed outcome together with the number of network
invocations. -/
def handleScanCore {E : Type} (f : ImageFile)
    (net : ScanPayload → Nat → Except E Envelope)
    (parse : String → Option Json) (rand : Nat → ℚ) :
    Except (ScanError E) Json × Nat :=
  match fileToBase64 f with
  | none => (Except.error ScanError.encodingError, 0)
  | some b64 =>
    let payload := buildScanPayload (effectiveMimeType f) b64
    let tr := retryWithBackoff (net payload) rand 5
    match tr.result with
    | none => (Except.error ScanError.internalError, tr.invocations)
    | some (Except.error e) => (Except.error (ScanError.apiFailure e), tr.invocations)
    | some (Except.ok env) => (decodeScanResponse parse env, tr.invocations)

/-- The generic user-facing failure message of the scan path (src/app.js
line 151). -/
def scanFailureMessage : String :=
  "Analysis failed. Please try a clearer picture or ask the bot for help."

/-- The catch clause of handleScan (src/app.js lines 149-152): every
internal error, whatever its kind, is shown to the caller as the one
generic failure message; a success shows no error. -/
def scanDisplay {E : Type} : Except (ScanError E) Json → Option String
  | Except.ok _ => none
  | Except.error _ => some scanFailureMessage

/-- An envelope whose single candidate carries the given text. -/
def envWithText (t : String) : Envelope :=
  { candidates := [{ content := some { parts := [{ text := some t }] } }] }

/-- An envelope with no candidates at all. -/
def envNoCandidates : Envelope := { candidates := [] }

/-- The well-formed analysis result of spec property 4: health 72, disease
Leaf Blight, three remedies. -/
def goodAnalysisJson : Json :=
  Json.obj
    [("health_percentage", Json.num 72),
     ("predicted_disease", Json.str "Leaf Blight"),
     ("home_remedies",
        Json.arr [Json.str "Spray a mild soap solution",
                  Json.str "Remove the affected leaves",
                  Json.str "Improve drainage"])]

/-- An analysis body whose `health_percentage` is the string "high" (wrong
type). -/
def highAnalysisJson : Json :=
  Json.obj
    [("health_percentage", Json.str "high"),
     ("predicted_disease", Json.str "Leaf Blight"),
     ("home_remedies", Json.arr [Json.str "a", Json.str "b", Json.str "c"])]

/-- An analysis body that passes the source's only validation (numeric
`health_percentage`) while violating every other spec invariant: health
150 (out of range), empty disease string, no remedies. -/
def badAnalysisJson : Json :=
  Json.obj
    [("health_percentage", Json.num 150),
     ("predicted_disease", Json.str ""),
     ("home_remedies", Json.arr [])]

/-- A concrete `JSON.parse` oracle for the witnesses: maps the text GOOD to
the well-formed body, HIGH to the wrong-type body, BAD to the
invariant-violating body, anything else to a SyntaxError. -/
def parseOracle (s : String) : Option Json :=
  if s = "GOOD" then some goodAnalysisJson
  else if s = "HIGH" then some highAnalysisJson
  else if s = "BAD" then some badAnalysisJson
  else none

/-- A readable image file. -/
def fileOk : ImageFile := { content := some "IMGDATA", fileType := "image/jpeg" }

/-- An unreadable image file: the FileReader rejects. -/
def fileUnreadable : ImageFile := { content := none, fileType := "image/jpeg" }

/-- A network that succeeds at once, returning an envelope whose text is
BAD (which parses to the invariant-violating body). -/
def netBad : ScanPayload → Nat → Except String Envelope :=
  fun _ _ => Except.ok (envWithText "BAD")

/-- A network that succeeds at once, returning an envelope whose text is
GOOD (which parses to the well-formed body). -/
def netGood : ScanPayload → Nat → Except String Envelope :=
  fun _ _ => Except.ok (envWithText "GOOD")

/-- Spec section 3 invariants on an AnalysisResult, written from the spec's
words (not from the source): healthPercentage an integer with
0 ≤ v ≤ 100, predictedDisease a non-empty string, remedies an ordered
sequence of 3 to 5 non-empty strings. -/
def specAnalysisInvariants (j : Json) : Bool :=
  (match j.getField "health_percentage" with
   | some (Json.num q) => q.den == 1 && decide (0 ≤ q) && decide (q ≤ 100)
   | _ => false)
  && (match j.getField "predicted_disease" with
      | some (Json.str d) => d != ""
      | _ => false)
  && (match j.getField "home_remedies" with
      | some (Json.arr rs) =>
          decide (3 ≤ rs.length) && decide (rs.length ≤ 5)
          && rs.all (fun r => match r with | Json.str s => s != "" | _ => false)
      | _ => false)

/-- A chat turn as stored in the Firestore collection: the document id
assigned on insertion, the author role, the text, and the server-assigned
timestamp. -/
structure ChatDoc where
  id : Nat
  role : String
  text : String
  timestamp : Nat
deriving DecidableEq

/-- The server-assigned timestamp of the next write: strictly after every
timestamp already in the store (serverTimestamp is monotone). -/
def nextTimestamp (store : List ChatDoc) : Nat :=
  (store.map (fun d => d.timestamp)).foldr max 0 + 1

/-- `addDoc` (src/app.js lines 330, 339, 356): appends a turn with a fresh
id and a server-assigned timestamp. -/
def appendDoc (store : List ChatDoc) (role text : String) : List ChatDoc :=
  store ++ [{ id := store.length, role := role, text := text,
              timestamp := nextTimestamp store }]

/-- One role-tagged message of the chat request payload. -/
structure ChatMessage where
  role : String
  text : String

/-- The chat request payload: the mapped history plus the new user turn,
and the fixed system instruction. -/
structure ChatPayload where
  contents : List ChatMessage
  systemInstruction : String

/-- The fixed system prompt of the chat request (src/app.js line 300). -/
def chatSystemPrompt : String :=
  "You are a friendly, knowledgeable, and practical home gardening expert and plant doctor. Your responses should be concise, encouraging, and focused on home remedies and simple, actionable care tips. Use common language and acknowledge the user's plant. When giving vacation tips, always prioritize simple, proven methods like wicking or bottle watering. Do not use external tools or markdown headers. Your only goal is to provide helpful, actionable advice."

/-- Builds the chat request payload (src/app.js lines 292-307): the
materialized snapshot `messages` filtered to turns with non-empty text,
each mapped to its role and text, followed by the new user message. -/
def buildChatPayload (messages : List ChatDoc) (userMessage : String) : ChatPayload :=
  { contents :=
      ((messages.filter (fun m => m.text != "")).map
        (fun m => { role := if m.role = "user" then "user" else "model",
                    text := m.text : ChatMessage }))
      ++ [{ role := "user", text := userMessage }],
    systemInstruction := chatSystemPrompt }

/-- The fixed apology string saved as a model turn when the chat inference
fails terminally (src/app.js line 341). -/
def apologyText : String :=
  "Oops! I ran into a technical issue. The gardening bot is on a coffee break. Please try your question again."

/-- `callGeminiApi` (src/app.js lines 291-345): drives the network call
through `retryWithBackoff` with the default cap of 5; on success it
appends a model turn with the returned text only when that text is present
and non-empty (the JS truthiness test `if (botResponse)`); on terminal
failure, and on the unreachable undefined retry result (whose property
read would throw and be caught by the same catch), it appends the fixed
apology turn.  Store writes are modelled as succeeding. -/
def callGeminiApi {E : Type} (store messages : List ChatDoc) (userMessage : String)
    (net : ChatPayload → Nat → Except E Envelope) (rand : Nat → ℚ) : List ChatDoc :=
  match (retryWithBackoff (net (buildChatPayload messages userMessage)) rand 5).result with
  | some (Except.ok env) =>
    match extractText env with
    | some t => if t = "" then store else appendDoc store "model" t
    | none => store
  | some (Except.error _) => appendDoc store "model" apologyText
  | none => appendDoc store "model" apologyText

/-- Drops the leading whitespace characters of a character list. -/
def dropLeadingWs : List Char → List Char
  | [] => []
  | c :: cs => if c.isWhitespace then dropLeadingWs cs else c :: cs

/-- The JS `String.prototype.trim`: strips whitespace from both ends.
(Defined by structural recursion so that concrete inputs evaluate.) -/
def jsTrim (s : String) : String :=
  String.mk (List.reverse (dropLeadingWs (List.reverse (dropLeadingWs s.data))))

/-- `handleSend` (src/app.js lines 347-366): a blank (whitespace-only)
input or an in-flight send leaves the store untouched; otherwise the
trimmed user message is appended as a user turn and `callGeminiApi` runs
with the current snapshot `messages`. -/
def handleSend {E : Type} (store messages : List ChatDoc) (input : String)
    (loading : Bool) (net : ChatPayload → Nat → Except E Envelope)
    (rand : Nat → ℚ) : List ChatDoc :=
  if jsTrim input = "" ∨ loading = true then store
  else callGeminiApi (appendDoc store "user" (jsTrim input)) messages (jsTrim input) net rand

/-- Stable insertion into a timestamp-sorted list: the new element goes
after every element with a timestamp less than or equal to its own. -/
def sortInsert (d : ChatDoc) : List ChatDoc → List ChatDoc
  | [] => [d]
  | x :: xs => if d.timestamp < x.timestamp then d :: x :: xs else x :: sortInsert d xs

/-- Stable sort of the store by ascending timestamp: the order Firestore
applies for `orderBy('timestamp', 'asc')`. -/
def sortByTimestamp : List ChatDoc → List ChatDoc
  | [] => []
  | x :: xs => sortInsert x (sortByTimestamp xs)

/-- The snapshot delivered to the chat subscriber (src/app.js lines
275-283): Firestore evaluates `orderBy('timestamp', 'asc')` with
`limit(50)`, i.e. the FIRST 50 documents in ascending timestamp order,
and the listener then filters out turns whose text is empty. -/
def chatView (store : List ChatDoc) : List ChatDoc :=
  ((sortByTimestamp store).take 50).filter (fun d => d.text != "")

/-- A log of 60 non-empty turns with strictly increasing timestamps
1..60. -/
def turns60 : List ChatDoc :=
  (List.range 60).map (fun i => { id := i, role := "user", text := "turn",
                                  timestamp := i + 1 })

/-- A chat network that always succeeds with an envelope carrying no
candidates, so no text can be extracted. -/
def netEmptySuccess : ChatPayload → Nat → Except String Envelope :=
  fun _ _ => Except.ok envNoCandidates

/-- A chat network that always succeeds with a fixed non-empty reply. -/
def netReply : ChatPayload → Nat → Except String Envelope :=
  fun _ _ => Except.ok (envWithText "Water it twice a week.")

/-- A chat network that always fails. -/
def netDown : ChatPayload → Nat → Except String Envelope :=
  fun _ _ => Except.error "network down"

theorem delaysFrom_eq_map (rand : Nat → ℚ) :
    ∀ (n i : Nat), delaysFrom rand i n
      = (List.range n).map (fun k => delay (i + k) (rand (i + k))) := by
  intro n
  induction n with
  | zero => intro i; simp [delaysFrom]
  | succ m ih =>
    intro i
    rw [List.range_succ_eq_map]
    simp only [delaysFrom, List.map_cons, List.map_map, Nat.add_zero]
    refine congrArg (delay i (rand i) :: ·) ?_
    rw [ih (i + 1)]
    refine List.map_congr_left ?_
    intro k _
    simp only [Function.comp_apply]
    have h : i + 1 + k = i + (k + 1) := by omega
    rw [h]

theorem retryLoop_all_fail {E A : Type} (fn : Nat → Except E A) (err : Nat → E)
    (rand : Nat → ℚ) (hfail : ∀ j, fn j = Except.error (err j)) :
    ∀ (fuel i : Nat), retryLoop fn rand i (fuel + 1)
      = { result := some (Except.error (err (i + fuel))), invocations := i + fuel + 1,
          delays := delaysFrom rand i fuel } := by
  intro fuel
  induction fuel with
  | zero => intro i; simp [retryLoop, hfail i, delaysFrom]
  | succ g ih =>
    intro i
    have h1 : i + 1 + g = i + (g + 1) := by omega
    have h2 : i + 1 + g + 1 = i + (g + 1) + 1 := by omega
    simp only [retryLoop, hfail i]
    rw [ih (i + 1)]
    simp only [h1, h2, delaysFrom]

theorem retryLoop_eventual_success {E A : Type} (fn : Nat → Except E A)
    (err : Nat → E) (v : A) (rand : Nat → ℚ) :
    ∀ (k i fuel : Nat), k < fuel →
      (∀ j, j < k → fn (i + j) = Except.error (err (i + j))) →
      fn (i + k) = Except.ok v →
      retryLoop fn rand i fuel
        = { result := some (Except.ok v), invocations := i + k + 1,
            delays := delaysFrom rand i k } := by
  intro k
  induction k with
  | zero =>
    intro i fuel hk _ hsucc
    rw [Nat.add_zero] at hsucc
    match fuel, hk with
    | 1, _ => simp [retryLoop, hsucc, delaysFrom]
    | g + 2, _ => simp [retryLoop, hsucc, delaysFrom]
  | succ m ih =>
    intro i fuel hk hfails hsucc
    match fuel, hk with
    | g + 2, hk =>
      have hi : fn i = Except.error (err i) := by
        have := hfails 0 (by omega)
        simpa using this
      have hrec := ih (i + 1) (g + 1) (by omega)
        (by
          intro j hj
          have := hfails (j + 1) (by omega)
          have h : i + (j + 1) = i + 1 + j := by omega
          rwa [h] at this)
        (by
          have h : i + (m + 1) = i + 1 + m := by omega
          rwa [h] at hsucc)
      simp only [retryLoop, hi]
      rw [hrec]
      have h1 : i + 1 + m + 1 = i + (m + 1) + 1 := by omega
      simp only [h1, delaysFrom]

theorem retryLoop_zero_fuel {E A : Type} (fn : Nat → Except E A)
    (rand : Nat → ℚ) (i : Nat) :
    retryLoop fn rand i 0 = { result := none, invocations := i, delays := [] } := rfl

/-- Claim C3: for every operation that fails on every attempt and every
maxAttempts ≥ 1, the retry executor invokes the operation exactly
maxAttempts times and then re-raises the error of the final attempt
(attempt maxAttempts - 1) unchanged. -/
theorem claim_c3_retry_exhaustion {E A : Type} (fn : Nat → Except E A)
    (err : Nat → E) (rand : Nat → ℚ) (m : Nat) (hm : 1 ≤ m)
    (hfail : ∀ j, fn j = Except.error (err j)) :
    (retryWithBackoff fn rand (m : Int)).result = some (Except.error (err (m - 1)))
    ∧ (retryWithBackoff fn rand (m : Int)).invocations = m := by
  obtain ⟨f, rfl⟩ : ∃ f, m = f + 1 := ⟨m - 1, by omega⟩
  unfold retryWithBackoff
  have ht : ((f + 1 : Nat) : Int).toNat = f + 1 := by simp
  rw [ht, retryLoop_all_fail fn err rand hfail f 0]
  simp

/-- Witness for C3 at a concrete always-failing operation with
maxAttempts = 5: exactly 5 invocations and the terminal error itself. -/
theorem claim_c3_retry_exhaustion_witness :
    (1 ≤ 5 ∧ ∀ j : Nat, (fun _ : Nat => (Except.error "boom" : Except String Nat)) j
        = Except.error "boom")
    ∧ (retryWithBackoff (fun _ => (Except.error "boom" : Except String Nat))
          (fun _ => 0) (5 : Int)).result = some (Except.error "boom")
    ∧ (retryWithBackoff (fun _ => (Except.error "boom" : Except String Nat))
          (fun _ => 0) (5 : Int)).invocations = 5 :=
  ⟨⟨by omega, fun _ => rfl⟩,
    claim_c3_retry_exhaustion (fun _ => Except.error "boom") (fun _ => "boom")
      (fun _ => 0) 5 (by omega) (fun _ => rfl)⟩

/-- Claim C4: for every k < maxAttempts and every operation that fails on
attempts 0..k-1 and succeeds on attempt k, the retry executor returns that
success value and invokes the operation exactly k + 1 times. -/
theorem claim_c4_retry_eventual_success {E A : Type} (fn : Nat → Except E A)
    (err : Nat → E) (v : A) (rand : Nat → ℚ) (k m : Nat) (hk : k < m)
    (hfails : ∀ j, j < k → fn j = Except.error (err j))
    (hsucc : fn k = Except.ok v) :
    (retryWithBackoff fn rand (m : Int)).result = some (Except.ok v)
    ∧ (retryWithBackoff fn rand (m : Int)).invocations = k + 1 := by
  unfold retryWithBackoff
  have ht : ((m : Nat) : Int).toNat = m := by simp
  rw [ht, retryLoop_eventual_success fn err v rand k 0 m hk
    (by intro j hj; simpa using hfails j hj) (by simpa using hsucc)]
  simp

/-- Witness for C4: an operation failing on attempts 0 and 1 and succeeding
on attempt 2, run with maxAttempts = 5, returns the success value 42 after
exactly 3 invocations. -/
theorem claim_c4_retry_eventual_success_witness :
    (2 < 5
      ∧ (∀ j : Nat, j < 2 →
          (fun i : Nat => if i < 2 then (Except.error "e" : Except String Nat)
            else Except.ok 42) j = Except.error "e")
      ∧ (fun i : Nat => if i < 2 then (Except.error "e" : Except String Nat)
          else Except.ok 42) 2 = Except.ok 42)
    ∧ (retryWithBackoff
          (fun i : Nat => if i < 2 then (Except.error "e" : Except String Nat)
            else Except.ok 42) (fun _ => 0) (5 : Int)).result = some (Except.ok 42)
    ∧ (retryWithBackoff
          (fun i : Nat => if i < 2 then (Except.error "e" : Except String Nat)
            else Except.ok 42) (fun _ => 0) (5 : Int)).invocations = 2 + 1 :=
  ⟨⟨by omega, fun j hj => if_pos hj, rfl⟩,
    claim_c4_retry_eventual_success _ (fun _ => "e") 42 (fun _ => 0) 2 5 (by omega)
      (fun j hj => if_pos hj) rfl⟩

/-- Claim C10: called with maxAttempts ≤ 0, the retry executor invokes the
operation zero times and resolves to undefined (modelled as a `none`
result) without raising any error. -/
theorem claim_c10_nonpositive_max {E A : Type} (fn : Nat → Except E A)
    (rand : Nat → ℚ) (m : Int) (hm : m ≤ 0) :
    retryWithBackoff fn rand m
      = { result := none, invocations := 0, delays := [] } := by
  unfold retryWithBackoff
  rw [Int.toNat_of_nonpos hm]
  exact retryLoop_zero_fuel fn rand 0

/-- Witness for C10 at maxAttempts = -3: no invocation, undefined result. -/
theorem claim_c10_nonpositive_max_witness :
    ((-3 : Int) ≤ 0)
    ∧ retryWithBackoff (fun _ => (Except.error "e" : Except String Nat))
        (fun _ => 0) (-3 : Int)
      = { result := none, invocations := 0, delays := [] } :=
  ⟨by omega, claim_c10_nonpositive_max _ _ _ (by omega)⟩

/-- Claim C8: for an operation that keeps failing, the delay slept after
attempt i is 2 ^ i * 1000 ms plus a jitter of rand i * 1000 ms, which lies
in [0, 1000) when the Math.random draw rand i lies in [0, 1); the
deterministic floor component doubles with each attempt, hence is monotone
nondecreasing. -/
theorem claim_c8_backoff_delays {E A : Type} (fn : Nat → Except E A)
    (err : Nat → E) (rand : Nat → ℚ) (m : Nat) (hm : 1 ≤ m)
    (hfail : ∀ j, fn j = Except.error (err j))
    (hrand : ∀ j, 0 ≤ rand j ∧ rand j < 1) :
    (retryWithBackoff fn rand (m : Int)).delays
        = (List.range (m - 1)).map (fun i => delay i (rand i))
    ∧ (∀ i, delayFloor i ≤ delay i (rand i) ∧ delay i (rand i) < delayFloor i + 1000)
    ∧ (∀ i, delayFloor (i + 1) = 2 * delayFloor i ∧ delayFloor i ≤ delayFloor (i + 1)) := by
  refine ⟨?_, ?_, ?_⟩
  · obtain ⟨f, rfl⟩ : ∃ f, m = f + 1 := ⟨m - 1, by omega⟩
    unfold retryWithBackoff
    have ht : ((f + 1 : Nat) : Int).toNat = f + 1 := by simp
    rw [ht, retryLoop_all_fail fn err rand hfail f 0]
    simp [delaysFrom_eq_map]
  · intro i
    have h0 := (hrand i).1
    have h1 := (hrand i).2
    constructor
    · have : (0 : ℚ) ≤ rand i * 1000 := by positivity
      simp only [delay, delayFloor]
      linarith
    · have : rand i * 1000 < 1 * 1000 := by
        have hpos : (0 : ℚ) < 1000 := by norm_num
        exact mul_lt_mul_of_pos_right h1 hpos
      simp only [delay, delayFloor]
      linarith
  · intro i
    constructor
    · simp only [delayFloor, pow_succ]
      ring
    · simp only [delayFloor]
      have hle : (2 : ℚ) ^ i ≤ 2 ^ (i + 1) := by
        have := pow_le_pow_right₀ (by norm_num : (1 : ℚ) ≤ 2) (Nat.le_succ i)
        simpa using this
      nlinarith

/-- Witness for C8 with maxAttempts = 3 and all Math.random draws 1/2: the
two recorded delays are the mapped list, and the bounds hold. -/
theorem claim_c8_backoff_delays_witness :
    (1 ≤ 3 ∧ (∀ j : Nat, ((fun _ : Nat => (Except.error "x" : Except String Nat)) j
        = Except.error "x"))
      ∧ (∀ j : Nat, (0 : ℚ) ≤ (fun _ : Nat => (1 / 2 : ℚ)) j
          ∧ (fun _ : Nat => (1 / 2 : ℚ)) j < 1))
    ∧ (retryWithBackoff (fun _ => (Except.error "x" : Except String Nat))
          (fun _ => (1 / 2 : ℚ)) (3 : Int)).delays
        = (List.range (3 - 1)).map (fun i => delay i ((fun _ : Nat => (1 / 2 : ℚ)) i))
    ∧ (∀ i, delayFloor i ≤ delay i ((fun _ : Nat => (1 / 2 : ℚ)) i)
        ∧ delay i ((fun _ : Nat => (1 / 2 : ℚ)) i) < delayFloor i + 1000)
    ∧ (∀ i, delayFloor (i + 1) = 2 * delayFloor i
        ∧ delayFloor i ≤ delayFloor (i + 1)) :=
  ⟨⟨by omega, fun _ => rfl, fun _ => by norm_num⟩,
    claim_c8_backoff_delays (fun _ => Except.error "x") (fun _ => "x")
      (fun _ => (1 / 2 : ℚ)) 3 (by omega) (fun _ => rfl) (fun _ => by norm_num)⟩

theorem retryWithBackoff_five {E A : Type} (fn : Nat → Except E A) (rand : Nat → ℚ) :
    retryWithBackoff fn rand 5 = retryLoop fn rand 0 5 := rfl

theorem validateParsed_not_num {E : Type} (j : Json)
    (hnum : ∀ q : ℚ, j.getField "health_percentage" ≠ some (Json.num q)) :
    ∃ e : ScanError E, validateParsed j = Except.error e
      ∧ e.kindOf = SpecErrorKind.schemaViolationError := by
  cases j with
  | null => exact ⟨ScanError.nullResponse, rfl, rfl⟩
  | bool b => exact ⟨ScanError.invalidHealthPercentage, rfl, rfl⟩
  | num q => exact ⟨ScanError.invalidHealthPercentage, rfl, rfl⟩
  | str s => exact ⟨ScanError.invalidHealthPercentage, rfl, rfl⟩
  | arr es => exact ⟨ScanError.invalidHealthPercentage, rfl, rfl⟩
  | obj fields =>
    refine ⟨ScanError.invalidHealthPercentage, ?_, rfl⟩
    cases hg : (Json.obj fields).getField "health_percentage" with
    | none => simp [validateParsed, hg]
    | some jj =>
      cases jj with
      | num q => exact absurd hg (hnum q)
      | null => simp [validateParsed, hg]
      | bool b => simp [validateParsed, hg]
      | str s => simp [validateParsed, hg]
      | arr es => simp [validateParsed, hg]
      | obj fs => simp [validateParsed, hg]

theorem validateParsed_num {E : Type} (j : Json) (q : ℚ)
    (h : j.getField "health_percentage" = some (Json.num q)) :
    validateParsed (E := E) j = Except.ok j := by
  cases j with
  | null => exact absurd h (by simp [Json.getField])
  | bool b => exact absurd h (by simp [Json.getField])
  | num q2 => exact absurd h (by simp [Json.getField])
  | str s => exact absurd h (by simp [Json.getField])
  | arr es => exact absurd h (by simp [Json.getField])
  | obj fields => simp [validateParsed, h]

theorem decodeScanResponse_with_parsed {E : Type} (parse : String → Option Json)
    (env : Envelope) (t : String) (j : Json) (ht : extractText env = some t)
    (hne : t ≠ "") (hp : parse t = some j) :
    decodeScanResponse (E := E) parse env = validateParsed j := by
  simp [decodeScanResponse, ht, hne, hp]

theorem decodeScanResponse_ok_health {E : Type} (parse : String → Option Json)
    (env : Envelope) (j : Json)
    (h : decodeScanResponse (E := E) parse env = Except.ok j) :
    ∃ q : ℚ, j.getField "health_percentage" = some (Json.num q) := by
  unfold decodeScanResponse at h
  cases hext : extractText env with
  | none => rw [hext] at h; exact absurd h (by simp)
  | some t =>
    rw [hext] at h
    simp only [] at h
    by_cases hte : t = ""
    · rw [if_pos hte] at h; exact absurd h (by simp)
    · rw [if_neg hte] at h
      cases hp : parse t with
      | none => rw [hp] at h; exact absurd h (by simp)
      | some j2 =>
        rw [hp] at h
        cases j2 with
        | null => exact absurd h (by simp [validateParsed])
        | bool b => exact absurd h (by simp [validateParsed, Json.getField])
        | num q2 => exact absurd h (by simp [validateParsed, Json.getField])
        | str s => exact absurd h (by simp [validateParsed, Json.getField])
        | arr es => exact absurd h (by simp [validateParsed, Json.getField])
        | obj fields =>
          cases hg : (Json.obj fields).getField "health_percentage" with
          | none => simp [validateParsed, hg] at h
          | some jj =>
            cases jj with
            | num q =>
              have hj : j = Json.obj fields := by
                simp [validateParsed, hg] at h
                exact h.symm
              exact ⟨q, by rw [hj]; exact hg⟩
            | null => simp [validateParsed, hg] at h
            | bool b => simp [validateParsed, hg] at h
            | str s => simp [validateParsed, hg] at h
            | arr es => simp [validateParsed, hg] at h
            | obj fs => simp [validateParsed, hg] at h

/-- Claim C9: for an unreadable image input the scan fails with the
encoding error before any network call (zero network invocations), and
every terminal scan failure, this one included, is surfaced to the caller
as the single generic analysis-failed message, never the raw internal
error. -/
theorem claim_c9_encoding_before_network {E : Type} (f : ImageFile)
    (net : ScanPayload → Nat → Except E Envelope) (parse : String → Option Json)
    (rand : Nat → ℚ) (hf : f.content = none) :
    handleScanCore f net parse rand = (Except.error ScanError.encodingError, 0)
    ∧ scanDisplay (handleScanCore f net parse rand).1 = some scanFailureMessage
    ∧ ∀ (f2 : ImageFile) (net2 : ScanPayload → Nat → Except E Envelope)
        (parse2 : String → Option Json) (rand2 : Nat → ℚ) (e : ScanError E),
        (handleScanCore f2 net2 parse2 rand2).1 = Except.error e →
        scanDisplay (handleScanCore f2 net2 parse2 rand2).1 = some scanFailureMessage := by
  have h1 : handleScanCore f net parse rand = (Except.error ScanError.encodingError, 0) := by
    simp [handleScanCore, fileToBase64, hf]
  refine ⟨h1, ?_, ?_⟩
  · rw [h1]
    rfl
  · intro f2 net2 parse2 rand2 e he
    rw [he]
    rfl

/-- Witness for C9 at a concrete unreadable file: typed encoding failure,
zero network invocations, generic message displayed. -/
theorem claim_c9_encoding_before_network_witness :
    fileUnreadable.content = none
    ∧ handleScanCore fileUnreadable netGood parseOracle (fun _ => 0)
        = (Except.error ScanError.encodingError, 0)
    ∧ scanDisplay (handleScanCore fileUnreadable netGood parseOracle (fun _ => 0)).1
        = some scanFailureMessage :=
  ⟨rfl,
    (claim_c9_encoding_before_network fileUnreadable netGood parseOracle
      (fun _ => 0) rfl).1,
    (claim_c9_encoding_before_network fileUnreadable netGood parseOracle
      (fun _ => 0) rfl).2.1⟩

/-- Claim C2 counterexample: a scan that succeeds although its result
violates the section 3 invariants (health percentage 150 > 100, empty
disease string, empty remedies list) — the code validates only that
`health_percentage` is a number, so the claim as stated is false. -/
theorem claim_c2_counterexample :
    (handleScanCore fileOk netBad parseOracle (fun _ => 0)).1 = Except.ok badAnalysisJson
    ∧ specAnalysisInvariants badAnalysisJson = false := by
  constructor
  · rfl
  · decide

/-- Claim C2 as amended: every AnalysisResult returned by a successful
scan has a numeric `health_percentage` field — the only invariant the code
enforces; the 0..100 range, the non-empty disease string and the 3-to-5
non-empty remedies are not validated. -/
theorem claim_c2_scan_success_numeric_health {E : Type} (f : ImageFile)
    (net : ScanPayload → Nat → Except E Envelope) (parse : String → Option Json)
    (rand : Nat → ℚ) (j : Json) (n : Nat)
    (h : handleScanCore f net parse rand = (Except.ok j, n)) :
    ∃ q : ℚ, j.getField "health_percentage" = some (Json.num q) := by
  unfold handleScanCore at h
  cases hc : fileToBase64 f with
  | none => rw [hc] at h; exact absurd h (by simp)
  | some b64 =>
    rw [hc] at h
    simp only [] at h
    cases hr : (retryWithBackoff
        (net (buildScanPayload (effectiveMimeType f) b64)) rand 5).result with
    | none => rw [hr] at h; exact absurd h (by simp)
    | some res =>
      rw [hr] at h
      cases res with
      | error e => exact absurd h (by simp)
      | ok env =>
        simp only [] at h
        have hd : decodeScanResponse (E := E) parse env = Except.ok j := by
          have := congrArg Prod.fst h
          simpa using this
        exact decodeScanResponse_ok_health parse env j hd

/-- Witness for the amended C2 at a concrete successful scan. -/
theorem claim_c2_scan_success_numeric_health_witness :
    handleScanCore fileOk netGood parseOracle (fun _ => 0)
        = (Except.ok goodAnalysisJson, 1)
    ∧ ∃ q : ℚ, goodAnalysisJson.getField "health_percentage" = some (Json.num q) :=
  ⟨rfl, claim_c2_scan_success_numeric_health fileOk netGood parseOracle
      (fun _ => 0) goodAnalysisJson 1 rfl⟩

/-- Claim C7: the decoder fails with the empty-response error on every
envelope whose first candidate text is absent or empty (no candidates
included); fails with a schema-violation-kind error on every envelope
whose text does not parse or whose parsed value has no numeric
health_percentage (e.g. the string high); and succeeds, returning the
parsed body, whenever the parsed value has a numeric health_percentage
(in particular healthPercentage 72 for the well-formed body). -/
theorem claim_c7_decoder_cases {E : Type} (parse : String → Option Json)
    (env : Envelope) :
    ((extractText env = none ∨ extractText env = some "") →
        decodeScanResponse (E := E) parse env
          = Except.error ScanError.emptyOrMalformedResponse
        ∧ (ScanError.emptyOrMalformedResponse : ScanError E).kindOf
          = SpecErrorKind.emptyResponseError)
    ∧ (∀ t, extractText env = some t → t ≠ "" → parse t = none →
        decodeScanResponse (E := E) parse env = Except.error ScanError.jsonSyntaxError
        ∧ (ScanError.jsonSyntaxError : ScanError E).kindOf
          = SpecErrorKind.schemaViolationError)
    ∧ (∀ t j, extractText env = some t → t ≠ "" → parse t = some j →
        (∀ q : ℚ, j.getField "health_percentage" ≠ some (Json.num q)) →
        ∃ e : ScanError E, decodeScanResponse (E := E) parse env = Except.error e
          ∧ e.kindOf = SpecErrorKind.schemaViolationError)
    ∧ (∀ t j (q : ℚ), extractText env = some t → t ≠ "" → parse t = some j →
        j.getField "health_percentage" = some (Json.num q) →
        decodeScanResponse (E := E) parse env = Except.ok j) := by
  refine ⟨?_, ?_, ?_, ?_⟩
  · rintro (h | h)
    · exact ⟨by simp [decodeScanResponse, h], rfl⟩
    · exact ⟨by simp [decodeScanResponse, h], rfl⟩
  · intro t ht hne hp
    exact ⟨by simp [decodeScanResponse, ht, hne, hp], rfl⟩
  · intro t j ht hne hp hnum
    rw [decodeScanResponse_with_parsed parse env t j ht hne hp]
    exact validateParsed_not_num j hnum
  · intro t j q ht hne hp hq
    rw [decodeScanResponse_with_parsed parse env t j ht hne hp]
    exact validateParsed_num j q hq

/-- Witness for C7 at the three concrete cases of spec property 4: the
well-formed body decodes to a result with health 72; the no-candidates
envelope gives the empty-response error; the wrong-type body gives a
schema-violation-kind error. -/
theorem claim_c7_decoder_cases_witness :
    decodeScanResponse (E := String) parseOracle (envWithText "GOOD")
        = Except.ok goodAnalysisJson
    ∧ goodAnalysisJson.getField "health_percentage" = some (Json.num 72)
    ∧ decodeScanResponse (E := String) parseOracle envNoCandidates
        = Except.error ScanError.emptyOrMalformedResponse
    ∧ ∃ e : ScanError String,
        decodeScanResponse (E := String) parseOracle (envWithText "HIGH")
          = Except.error e
        ∧ e.kindOf = SpecErrorKind.schemaViolationError := by
  refine ⟨?_, rfl, ?_, ?_⟩
  · exact (claim_c7_decoder_cases parseOracle (envWithText "GOOD")).2.2.2
      "GOOD" goodAnalysisJson 72 rfl (by decide) rfl rfl
  · exact ((claim_c7_decoder_cases parseOracle envNoCandidates).1 (Or.inl rfl)).1
  · exact (claim_c7_decoder_cases parseOracle (envWithText "HIGH")).2.2.1
      "HIGH" highAnalysisJson rfl (by decide) rfl
      (by intro q hq; simp [highAnalysisJson, Json.getField] at hq)

/-- Claim C5: when the chat inference fails on all 5 attempts, exactly two
new turns are appended to the log: first a user-role turn with the trimmed
utterance, then one model-role turn with the fixed apology string; the
failure is absorbed (the send path produces a final store, modelling that
no exception escapes). -/
theorem claim_c5_send_inference_failure {E : Type} (store messages : List ChatDoc)
    (input : String) (net : ChatPayload → Nat → Except E Envelope) (rand : Nat → ℚ)
    (hin : jsTrim input ≠ "")
    (hfail : ∀ (p : ChatPayload) (i : Nat), ∃ e : E, net p i = Except.error e) :
    handleSend store messages input false net rand
      = appendDoc (appendDoc store "user" (jsTrim input)) "model" apologyText := by
  have hguard : ¬(jsTrim input = "" ∨ false = true) := by simp [hin]
  unfold handleSend
  rw [if_neg hguard]
  unfold callGeminiApi
  have herr : ∀ i, net (buildChatPayload messages (jsTrim input)) i
      = Except.error (Classical.choose (hfail (buildChatPayload messages (jsTrim input)) i)) :=
    fun i => Classical.choose_spec (hfail (buildChatPayload messages (jsTrim input)) i)
  have htr : retryLoop (net (buildChatPayload messages (jsTrim input))) rand 0 5
      = { result := some (Except.error
            (Classical.choose (hfail (buildChatPayload messages (jsTrim input)) 4))),
          invocations := 5, delays := delaysFrom rand 0 4 } :=
    retryLoop_all_fail (net (buildChatPayload messages (jsTrim input)))
      (fun i => Classical.choose (hfail (buildChatPayload messages (jsTrim input)) i))
      rand herr 4 0
  rw [retryWithBackoff_five, htr]

/-- Witness for C5: a concrete send over a dead network appends exactly the
trimmed user turn and then the apology turn. -/
theorem claim_c5_send_inference_failure_witness :
    (jsTrim " water tips " ≠ ""
      ∧ ∀ (p : ChatPayload) (i : Nat), ∃ e : String, netDown p i = Except.error e)
    ∧ handleSend [] [] " water tips " false netDown (fun _ => 0)
      = appendDoc (appendDoc [] "user" (jsTrim " water tips ")) "model" apologyText :=
  ⟨⟨by decide, fun _ _ => ⟨"network down", rfl⟩⟩,
    claim_c5_send_inference_failure [] [] " water tips " netDown (fun _ => 0)
      (by decide) (fun _ _ => ⟨"network down", rfl⟩)⟩

/-- Claim C6 counterexample: a chat inference call that succeeds (the retry
result is the successful empty-candidates envelope) after which zero model
turns are appended — the code appends a model turn only when the extracted
text is non-empty, so the claim that every successful call appends exactly
one model turn with the returned (possibly empty) text is false. -/
theorem claim_c6_counterexample :
    (retryWithBackoff (netEmptySuccess (buildChatPayload [] "hello"))
        (fun _ => 0) 5).result = some (Except.ok envNoCandidates)
    ∧ callGeminiApi [] [] "hello" netEmptySuccess (fun _ => 0) = [] := by
  exact ⟨rfl, rfl⟩

/-- Claim C6 as amended: on a successful inference call the chat path
appends exactly one model-role turn with the returned text when that text
is present and non-empty, and appends nothing at all when the extracted
text is absent or empty. -/
theorem claim_c6_chat_success_append {E : Type} (store messages : List ChatDoc)
    (userMessage : String) (net : ChatPayload → Nat → Except E Envelope)
    (rand : Nat → ℚ) (env : Envelope)
    (hok : (retryWithBackoff (net (buildChatPayload messages userMessage)) rand 5).result
        = some (Except.ok env)) :
    (∀ t, extractText env = some t → t ≠ "" →
        callGeminiApi store messages userMessage net rand = appendDoc store "model" t)
    ∧ ((extractText env = none ∨ extractText env = some "") →
        callGeminiApi store messages userMessage net rand = store) := by
  constructor
  · intro t ht hne
    unfold callGeminiApi
    rw [hok]
    simp only []
    rw [ht]
    simp [hne]
  · intro h
    unfold callGeminiApi
    rw [hok]
    simp only []
    rcases h with h | h
    · rw [h]
    · rw [h]
      simp

/-- Witness for the amended C6: a successful reply appends exactly one
model turn carrying the reply text. -/
theorem claim_c6_chat_success_append_witness :
    (retryWithBackoff (netReply (buildChatPayload [] "my fern is droopy"))
        (fun _ => 0) 5).result = some (Except.ok (envWithText "Water it twice a week."))
    ∧ callGeminiApi [] [] "my fern is droopy" netReply (fun _ => 0)
      = appendDoc [] "model" "Water it twice a week." :=
  ⟨rfl,
    (claim_c6_chat_success_append [] [] "my fern is droopy" netReply (fun _ => 0)
        (envWithText "Water it twice a week.") rfl).1
      "Water it twice a week." rfl (by decide)⟩

/-- Claim C1, behavior of the code at the failing input: with 60 non-empty
turns of timestamps 1..60 in the log, the view delivered to a new
subscriber is the 50 OLDEST turns (timestamps 1..50) — it contains the
turn with timestamp 1, which is not among the 50 most recent, and omits
the newest turn (timestamp 60), which is.  Firestore's limit(50) keeps the
first 50 of the ascending order, while the claim (and the spec) require
the 50 most recent. -/
theorem claim_c1_view_keeps_oldest :
    chatView turns60
      = (List.range 50).map (fun i => { id := i, role := "user", text := "turn",
                                        timestamp := i + 1 })
    ∧ ({ id := 0, role := "user", text := "turn", timestamp := 1 } : ChatDoc)
        ∈ chatView turns60
    ∧ ¬ (({ id := 59, role := "user", text := "turn", timestamp := 60 } : ChatDoc)
        ∈ chatView turns60)
    ∧ ∀ d ∈ chatView turns60, d.timestamp ≤ 50 := by
  refine ⟨by decide, by decide, by decide, by decide⟩
